import Mathlib

/-!
Shallow embedding of the network file-transfer system
(`file_server.py` / `file_client.py`): the framing codec, the file store
operations and the server's per-connection request dispatch, together with
theorems settling the specification claims.

Conventions of the embedding:
* Bytes are `Nat` values (the code never relies on the 0..255 range except
  through `to_bytes`, where we reduce mod 256 explicitly).
* The TCP byte stream delivered to a `recv`-ing peer is a list of nonempty
  segments: `socket.recv(k)` returns at most `k` bytes from the front
  segment, and returns the empty chunk exactly when the stream is
  exhausted (peer closed).
* The storage directory is a list of directory entries (regular files with
  content and modification time, or sub-directories); filesystem clock
  reads are passed in as a `now` string.
-/

namespace FileTransfer

abbrev Bytes := List Nat

/-- `int.to_bytes(w, byteorder='big')`: big-endian, fixed width `w` bytes.
(Python raises `OverflowError` when `n ≥ 256^w`; theorems about exact
round-trips carry that bound as a hypothesis.) -/
def toBytesBE : Nat → Nat → Bytes
  | 0, _ => []
  | w + 1, n => toBytesBE w (n / 256) ++ [n % 256]

/-- `int.from_bytes(bs, byteorder='big')`. -/
def fromBytesBE (bs : Bytes) : Nat :=
  bs.foldl (fun acc b => acc * 256 + b) 0

/-- One directory entry under the storage root: a regular file with its
content bytes and modification time, or a sub-directory. -/
inductive DirEntry
  | file (name : String) (content : Bytes) (modified : String)
  | subdir (name : String)
deriving DecidableEq, Repr

/-- The File Store: the storage directory's entries. -/
abbrev Store := List DirEntry

def DirEntry.name : DirEntry → String
  | .file n _ _ => n
  | .subdir n => n

/-- `os.path.exists(os.path.join(storage_dir, n))`, resolved to the entry it
names: the first directory entry called `n`, if any. -/
def findEntry (st : Store) (n : String) : Option DirEntry :=
  st.find? (fun e => e.name = n)

/-- `True` when the entry named `n` under the storage root is a
sub-directory (then `open(..., 'wb')`, `open(..., 'rb')` and `os.remove`
all raise instead of operating on file bytes). -/
def isDirAt (st : Store) (n : String) : Bool :=
  match findEntry st n with
  | some (.subdir _) => true
  | _ => false

/-- Writing `filepath` with mode `'wb'`: truncate-and-replace the first
entry named `n` (a fresh write updates the mtime), or create the file. -/
def setFile (st : Store) (n : String) (data : Bytes) (now : String) : Store :=
  match st with
  | [] => [.file n data now]
  | e :: rest =>
      if e.name = n then .file n data now :: rest
      else e :: setFile rest n data now

/-- `os.remove`: drop the first entry named `n`. -/
def removeFile (st : Store) (n : String) : Store :=
  match st with
  | [] => []
  | e :: rest => if e.name = n then rest else e :: removeFile rest n

/-- Response status: `'success'` or `'error'`. -/
inductive Status
  | success
  | error
deriving DecidableEq, Repr

/-- One entry of a LIST response, as built by `FileServer.get_file_info`:
the absent-file branch populates neither `size` nor `modified`. -/
structure FileMetadata where
  name : String
  size : Option Nat
  modified : Option String
  «exists» : Bool
deriving DecidableEq, Repr

/-- A control Response map: `status` plus the optional fields the server
ever sets. -/
structure Response where
  status : Status
  message : Option String := none
  size : Option Nat := none
  files : Option (List FileMetadata) := none
deriving DecidableEq, Repr

/-- How many of the optional Response fields are populated. -/
def Response.populatedCount (r : Response) : Nat :=
  (if r.message.isSome then 1 else 0)
    + (if r.size.isSome then 1 else 0)
    + (if r.files.isSome then 1 else 0)

/-- `FileServer.get_file_info`: stat the entry named `filename`. An absent
path yields `{'name': filename, 'exists': False}` with no `size`/`modified`
keys. (If the first entry named `filename` is a sub-directory, `os.stat`
still succeeds; its platform-dependent size/mtime are left unmodelled as
`none` — no claim and no `list_files` call reaches that case.) -/
def get_file_info (st : Store) (filename : String) : FileMetadata :=
  match findEntry st filename with
  | some (.file n c mo) => ⟨n, some c.length, some mo, true⟩
  | some (.subdir n) => ⟨n, none, none, true⟩
  | none => ⟨filename, none, none, false⟩

/-- `FileServer.list_files`: for every directory entry that is a regular
file (`os.path.isfile`), stat it via `get_file_info`; sub-directories are
skipped. (The `except` branch for an `os.listdir` failure is not
modelled.) -/
def list_files (st : Store) : Response :=
  { status := .success
    files := some (st.filterMap (fun e =>
      match e with
      | .file n _ _ => some (get_file_info st n)
      | .subdir _ => none)) }

/-- Message of the `IsADirectoryError` (or `PermissionError`) raised when a
file operation hits a directory path; the code surfaces `str(e)`. The
exact text is platform-dependent and modelled abstractly. -/
def isADirectoryMsg (filename : String) : String :=
  "Is a directory: " ++ filename

/-- `FileServer.store_file`: `open(filepath, 'wb').write(file_data)` —
overwrite-or-create, then `{'status':'success', 'message':..., 'size':
len(file_data)}`. Opening a directory path for writing raises, landing in
the `except` branch. Returns the response and the store after the call. -/
def store_file (st : Store) (filename : String) (file_data : Bytes)
    (now : String) : Response × Store :=
  if isDirAt st filename then
    ({ status := .error, message := some (isADirectoryMsg filename) }, st)
  else
    ({ status := .success
       message := some ("File " ++ filename ++ " stored successfully")
       size := some file_data.length },
     setFile st filename file_data now)

/-- `FileServer.delete_file`: `os.remove` when the path exists, else the
not-found error response. `os.remove` of a directory raises, landing in
the `except` branch. -/
def delete_file (st : Store) (filename : String) : Response × Store :=
  match findEntry st filename with
  | some (.file _ _ _) =>
      ({ status := .success
         message := some ("File " ++ filename ++ " deleted successfully") },
       removeFile st filename)
  | some (.subdir _) =>
      ({ status := .error, message := some (isADirectoryMsg filename) }, st)
  | none =>
      ({ status := .error
         message := some ("File " ++ filename ++ " not found") }, st)

/-- Result of `FileServer.get_file`: on success the dict carries the file
bytes and their length; otherwise only an error message. -/
inductive GetResult
  | found (data : Bytes) (size : Nat)
  | failure (message : String)
deriving DecidableEq, Repr

/-- `FileServer.get_file`: read the whole file when the path exists, else
the not-found error. Opening a directory path for reading raises, landing
in the `except` branch. -/
def get_file (st : Store) (filename : String) : GetResult :=
  match findEntry st filename with
  | some (.file _ c _) => .found c c.length
  | some (.subdir _) => .failure (isADirectoryMsg filename)
  | none => .failure ("File " ++ filename ++ " not found")

/-! ### The byte stream and `socket.recv` -/

/-- The bytes a peer has in flight towards a receiver: the list of
delivered segments (each nonempty in a real TCP stream), exhausted when
the list is empty (peer closed the connection). -/
abbrev Stream := List Bytes

/-- `socket.recv(k)`: up to `k` bytes from the front segment; the empty
chunk signals an exhausted stream. -/
def recv (stream : Stream) (k : Nat) : Bytes × Stream :=
  match stream with
  | [] => ([], [])
  | seg :: rest =>
      if seg.length ≤ k then (seg, rest)
      else (seg.take k, seg.drop k :: rest)

/-- The `while len(file_data) < file_size` accumulation loop shared by
`FileServer.receive_file_data` and `FileClient.receive_file_data`:
repeatedly `recv(min(4096, file_size - len(file_data)))`, appending each
chunk, breaking on an empty chunk. `fuel` bounds the iteration count; each
productive iteration shortens `need` by at least one byte, so `fuel = need`
at the top-level call makes the fuel-exhaustion branch unreachable. -/
def recvLoopFuel : Nat → Stream → Nat → Bytes × Stream
  | _, stream, 0 => ([], stream)
  | 0, stream, _ + 1 => ([], stream)
  | fuel + 1, stream, need + 1 =>
      let (chunk, s₁) := recv stream (min 4096 (need + 1))
      if chunk = [] then ([], s₁)
      else
        let (restData, s₂) := recvLoopFuel fuel s₁ (need + 1 - chunk.length)
        (chunk ++ restData, s₂)

/-- The accumulation loop at its call site: receive up to `need` bytes. -/
def recvLoop (stream : Stream) (need : Nat) : Bytes × Stream :=
  recvLoopFuel need stream need

/-- `FileServer.receive_file_data`: read the 8-byte big-endian size
(returning `None` when `recv(8)` yields fewer than 8 bytes), then run the
accumulation loop. A payload body that ends early is returned as-is —
short, but not `None`. -/
def receive_file_data (stream : Stream) : Option Bytes × Stream :=
  let (size_bytes, s₁) := recv stream 8
  if size_bytes.length ≠ 8 then (none, s₁)
  else
    let file_size := fromBytesBE size_bytes
    let (file_data, s₂) := recvLoop s₁ file_size
    (some file_data, s₂)

/-! ### The sending side of the framing codec -/

/-- The `for i in range(0, file_size, chunk_size)` loop of
`send_file_data` (server and client alike): the successive
`file_data[i:i+4096]` slices, in order. `fuel` bounds the iteration count;
each iteration drops at least one byte, so `fuel = data.length` at the
top-level call makes the fuel-exhaustion branch unreachable. -/
def sendChunksFuel : Nat → Bytes → List Bytes
  | _, [] => []
  | 0, _ :: _ => []
  | fuel + 1, b :: rest =>
      (b :: rest).take 4096 :: sendChunksFuel fuel ((b :: rest).drop 4096)

/-- The chunking loop at its call site. -/
def sendChunks (data : Bytes) : List Bytes :=
  sendChunksFuel data.length data

/-- Bytes written by `send_file_data` (server lines 97–110, client lines
76–95): the 8-byte big-endian length, then the content in 4096-byte
chunks. -/
def send_file_data (file_data : Bytes) : Bytes :=
  toBytesBE 8 file_data.length ++ (sendChunks file_data).flatten

/-- Bytes written by `send_response` / `send_request` for an
already-encoded body (the UTF-8 bytes of `json.dumps` of the map, which
this embedding keeps abstract): the 4-byte big-endian length, then the
body. -/
def send_control_frame (body : Bytes) : Bytes :=
  toBytesBE 4 body.length ++ body

/-! ### The Request Dispatcher (`FileServer.handle_client`, one
iteration) -/

/-- One control frame as `handle_client` sees it after reading the frame
body, by how `request_data.decode('utf-8')` and `json.loads` fare (lines
153–155): the body may not be decodable UTF-8 (`UnicodeDecodeError` at
line 154 — uncaught), decode but not parse as JSON (`json.JSONDecodeError`
— caught at line 210), parse as JSON that is not a map (`AttributeError`
from `request.get` at line 155 — uncaught), or parse into a map whose
`command` / `filename` keys are read with `request.get(key, '')`. -/
inductive Msg
  | notUtf8
  | notJson
  | nonMapJson
  | req (command : Option String) (filename : Option String)
deriving DecidableEq, Repr

/-- What a dispatch iteration writes to the socket: control frames
(`send_response`) and raw payload frames (`send_file_data`). -/
inductive Frame
  | control (r : Response)
  | payload (d : Bytes)
deriving DecidableEq, Repr

/-- Whether the `while True` loop continues to the next request or is left
(`break` on QUIT, after which the handler closes the socket). -/
inductive ConnAction
  | proceed
  | closed
deriving DecidableEq, Repr

/-- Result of one dispatch iteration: the frames written in order, the
store after it, the loop action, and the unread remainder of the inbound
stream. -/
structure HandleResult where
  frames : List Frame
  store : Store
  action : ConnAction
  stream : Stream
deriving DecidableEq, Repr

/-- One iteration of the `handle_client` dispatch loop (lines 153–212),
from a read control frame onward. `now` is the filesystem clock at the
moment of a write. Only `json.JSONDecodeError` is caught inside the loop
(line 210); a `UnicodeDecodeError` or `AttributeError` propagates to the
outer handler (line 214), which exits the loop and closes the socket
(lines 216–217) having written nothing for that frame. -/
def handleMessage (st : Store) (m : Msg) (stream : Stream) (now : String) :
    HandleResult :=
  match m with
  | .notUtf8 => ⟨[], st, .closed, stream⟩
  | .nonMapJson => ⟨[], st, .closed, stream⟩
  | .notJson =>
      ⟨[.control { status := .error, message := some "Invalid request format" }],
       st, .proceed, stream⟩
  | .req cmdField fnField =>
      let command := cmdField.getD ""
      if command = "LIST" then
        ⟨[.control (list_files st)], st, .proceed, stream⟩
      else if command = "UPLOAD" then
        let filename := fnField.getD ""
        if filename ≠ "" then
          let (file_data, s₁) := receive_file_data stream
          match file_data with
          | some data =>
              let (resp, st') := store_file st filename data now
              ⟨[.control resp], st', .proceed, s₁⟩
          | none =>
              ⟨[.control { status := .error
                           message := some "Failed to receive file data" }],
               st, .proceed, s₁⟩
        else
          ⟨[.control { status := .error
                       message := some "Filename not provided" }],
           st, .proceed, stream⟩
      else if command = "DOWNLOAD" then
        let filename := fnField.getD ""
        if filename ≠ "" then
          match get_file st filename with
          | .found data size =>
              ⟨[.control { status := .success, size := some size },
                .payload data],
               st, .proceed, stream⟩
          | .failure msg =>
              ⟨[.control { status := .error, message := some msg }],
               st, .proceed, stream⟩
        else
          ⟨[.control { status := .error
                       message := some "Filename not provided" }],
           st, .proceed, stream⟩
      else if command = "DELETE" then
        let filename := fnField.getD ""
        if filename ≠ "" then
          let (resp, st') := delete_file st filename
          ⟨[.control resp], st', .proceed, stream⟩
        else
          ⟨[.control { status := .error
                       message := some "Filename not provided" }],
           st, .proceed, stream⟩
      else if command = "QUIT" then
        ⟨[.control { status := .success, message := some "Goodbye!" }],
         st, .closed, stream⟩
      else
        ⟨[.control { status := .error
                     message := some ("Unknown command: " ++ command) }],
         st, .proceed, stream⟩

/-! ### Helper lemmas -/

theorem toBytesBE_length (w n : Nat) : (toBytesBE w n).length = w := by
  induction w generalizing n with
  | zero => rfl
  | succ w ih => simp [toBytesBE, ih]

theorem fromBytesBE_append_singleton (bs : Bytes) (b : Nat) :
    fromBytesBE (bs ++ [b]) = fromBytesBE bs * 256 + b := by
  simp [fromBytesBE, List.foldl_append]

theorem fromBytesBE_toBytesBE (w n : Nat) (h : n < 256 ^ w) :
    fromBytesBE (toBytesBE w n) = n := by
  induction w generalizing n with
  | zero =>
      have : n = 0 := by simpa using Nat.lt_one_iff.mp (by simpa using h)
      simp [this, toBytesBE, fromBytesBE]
  | succ w ih =>
      have hdiv : n / 256 < 256 ^ w := by
        rw [Nat.div_lt_iff_lt_mul (by norm_num : (0:ℕ) < 256)]
        calc n < 256 ^ (w + 1) := h
          _ = 256 ^ w * 256 := by ring
      rw [toBytesBE, fromBytesBE_append_singleton, ih _ hdiv]
      omega

theorem recv_fst_append_flatten (stream : Stream) (k : Nat) :
    (recv stream k).1 ++ (recv stream k).2.flatten = stream.flatten := by
  match stream with
  | [] => simp [recv]
  | seg :: rest =>
      by_cases h : seg.length ≤ k
      · simp [recv, h]
      · simp only [recv, if_neg h, List.flatten_cons]
        rw [← List.append_assoc, List.take_append_drop]

theorem recv_fst_length_le (stream : Stream) (k : Nat) :
    (recv stream k).1.length ≤ k := by
  match stream with
  | [] => simp [recv]
  | seg :: rest =>
      by_cases h : seg.length ≤ k
      · simp only [recv, if_pos h]
        exact h
      · simp [recv, h]

theorem recv_fst_ne_nil (stream : Stream) (k : Nat)
    (hwf : ∀ seg ∈ stream, seg ≠ []) (hs : stream ≠ []) (hk : 0 < k) :
    (recv stream k).1 ≠ [] := by
  match stream with
  | [] => exact absurd rfl hs
  | seg :: rest =>
      have hseg : 0 < seg.length := List.length_pos.mpr (hwf seg (by simp))
      by_cases h : seg.length ≤ k
      · simp only [recv, if_pos h]
        exact hwf seg (by simp)
      · simp only [recv, if_neg h]
        apply List.length_pos.mp
        simp only [List.length_take]
        omega

theorem recv_snd_wf (stream : Stream) (k : Nat)
    (hwf : ∀ seg ∈ stream, seg ≠ []) :
    ∀ seg ∈ (recv stream k).2, seg ≠ [] := by
  match stream with
  | [] => simp [recv]
  | seg :: rest =>
      by_cases h : seg.length ≤ k
      · simpa [recv, h] using fun s hs => hwf s (by simp [hs])
      · intro s hs
        simp only [recv, if_neg h] at hs
        rcases List.mem_cons.mp hs with h1 | h1
        · subst h1
          apply List.length_pos.mp
          simp only [List.length_drop]
          omega
        · exact hwf s (by simp [h1])

theorem recvLoopFuel_exact (fuel : Nat) (stream : Stream) (need : Nat)
    (hwf : ∀ seg ∈ stream, seg ≠ []) (hfuel : need ≤ fuel)
    (hlen : need ≤ stream.flatten.length) :
    (recvLoopFuel fuel stream need).1 = stream.flatten.take need := by
  induction fuel generalizing stream need with
  | zero =>
      have : need = 0 := Nat.le_zero.mp hfuel
      subst this
      simp [recvLoopFuel]
  | succ fuel ih =>
      match need with
      | 0 => simp [recvLoopFuel]
      | need + 1 =>
          have hs : stream ≠ [] := by
            intro h
            rw [h] at hlen
            simp at hlen
          have hchunk : (recv stream (min 4096 (need + 1))).1 ≠ [] :=
            recv_fst_ne_nil stream _ hwf hs (by omega)
          have hclen : (recv stream (min 4096 (need + 1))).1.length ≤ need + 1 :=
            le_trans (recv_fst_length_le stream _) (min_le_right _ _)
          have hcpos : 0 < (recv stream (min 4096 (need + 1))).1.length :=
            List.length_pos.mpr hchunk
          have hflat : (recv stream (min 4096 (need + 1))).1
              ++ (recv stream (min 4096 (need + 1))).2.flatten = stream.flatten :=
            recv_fst_append_flatten stream _
          have hlen' : need + 1 - (recv stream (min 4096 (need + 1))).1.length
              ≤ (recv stream (min 4096 (need + 1))).2.flatten.length := by
            have := congrArg List.length hflat
            simp only [List.length_append] at this
            omega
          rw [recvLoopFuel]
          simp only [hchunk, if_false]
          rw [ih (recv stream (min 4096 (need + 1))).2 _
            (recv_snd_wf stream _ hwf) (by omega) hlen']
          rw [← hflat, List.take_append_eq_append_take,
            List.take_of_length_le hclen]

/-- The accumulation loop receives exactly the first `need` delivered
bytes whenever the stream delivers at least `need` bytes, whatever the
segment boundaries. -/
theorem recvLoop_exact (stream : Stream) (need : Nat)
    (hwf : ∀ seg ∈ stream, seg ≠ []) (hlen : need ≤ stream.flatten.length) :
    (recvLoop stream need).1 = stream.flatten.take need :=
  recvLoopFuel_exact need stream need hwf le_rfl hlen

theorem sendChunksFuel_flatten (fuel : Nat) (data : Bytes)
    (h : data.length ≤ fuel) :
    (sendChunksFuel fuel data).flatten = data := by
  induction fuel generalizing data with
  | zero =>
      have : data = [] := List.length_eq_zero.mp (Nat.le_zero.mp h)
      simp [this, sendChunksFuel]
  | succ fuel ih =>
      match data with
      | [] => simp [sendChunksFuel]
      | b :: rest =>
          have hlen : ((b :: rest).drop 4096).length ≤ fuel := by
            simp only [List.length_drop, List.length_cons]
            simp only [List.length_cons] at h
            omega
          simp only [sendChunksFuel, List.flatten_cons, ih _ hlen]
          exact List.take_append_drop 4096 (b :: rest)

/-- The 4096-byte chunking of `send_file_data` reassembles to exactly the
content it was given. -/
theorem sendChunks_flatten (data : Bytes) :
    (sendChunks data).flatten = data :=
  sendChunksFuel_flatten data.length data le_rfl

/-- After a write, the entry the store resolves for the written name is
exactly the fresh file, whatever the prior state. -/
theorem findEntry_setFile_self (st : Store) (n : String) (d : Bytes)
    (now : String) :
    findEntry (setFile st n d now) n = some (.file n d now) := by
  induction st with
  | nil => simp [setFile, findEntry, DirEntry.name]
  | cons e rest ih =>
      by_cases h : e.name = n
      · rw [setFile, if_pos h]
        simp [findEntry, List.find?, DirEntry.name]
      · rw [setFile, if_neg h]
        simp only [findEntry, List.find?] at ih ⊢
        simp [h, ih]

/-- In a store with distinct entry names (true of every real directory),
lookup by an entry's own name finds that entry. -/
theorem findEntry_of_nodup (st : Store) (e : DirEntry)
    (hnd : (st.map DirEntry.name).Nodup) (he : e ∈ st) :
    findEntry st e.name = some e := by
  induction st with
  | nil => cases he
  | cons e' rest ih =>
      rcases List.mem_cons.mp he with h1 | h1
      · subst h1
        simp [findEntry, List.find?]
      · by_cases h : e'.name = e.name
        · exfalso
          have : e.name ∈ rest.map DirEntry.name :=
            List.mem_map.mpr ⟨e, h1, rfl⟩
          rw [← h] at this
          exact (List.nodup_cons.mp (by simpa using hnd)).1 this
        · have := ih (List.nodup_cons.mp (by simpa using hnd)).2 h1
          simp only [findEntry, List.find?] at this ⊢
          simp [h, this]

/-- `request.get('command', '')` (or `'filename'`) yields a given
non-empty string exactly when the field was present with that value. -/
theorem getD_empty_eq_some {c : Option String} {s : String}
    (h : c.getD "" = s) (hs : s ≠ "") : c = some s := by
  cases c with
  | none =>
      simp only [Option.getD_none] at h
      exact absurd h.symm hs
  | some t =>
      simp only [Option.getD_some] at h
      rw [h]

/-! ### Claim theorems -/

/-- **C1.** For every byte string `B`, non-empty filename `n` and prior
store state (including a pre-existing file named `n` with different
content), the UPLOAD store operation for `n` with payload `B` followed by
the DOWNLOAD read operation for `n` yields exactly `B`, byte for byte
(empty and multi-chunk payloads included, since `B` is arbitrary); the
store never merges or appends to prior content. The hypothesis rules out
`n` naming a sub-directory of the storage root, where both operations
raise instead of touching file bytes. -/
theorem upload_store_then_download_read_roundtrip (st : Store) (n : String)
    (B : Bytes) (now : String) (_hn : n ≠ "") (hdir : isDirAt st n = false) :
    (store_file st n B now).1.status = .success ∧
    get_file (store_file st n B now).2 n = .found B B.length := by
  constructor
  · simp [store_file, hdir]
  · simp [store_file, hdir, get_file, findEntry_setFile_self]

/-- Witness for C1: a store that already holds `"a"` with different
content; uploading `[9, 8]` then reading back yields exactly `[9, 8]`. -/
theorem upload_store_then_download_read_roundtrip_witness :
    ("a" ≠ "" ∧ isDirAt [DirEntry.file "a" [1] "old"] "a" = false) ∧
    ((store_file [DirEntry.file "a" [1] "old"] "a" [9, 8] "t").1.status = .success ∧
     get_file (store_file [DirEntry.file "a" [1] "old"] "a" [9, 8] "t").2 "a"
       = .found [9, 8] ([9, 8] : Bytes).length) :=
  ⟨⟨by decide, by decide⟩,
   upload_store_then_download_read_roundtrip [DirEntry.file "a" [1] "old"]
     "a" [9, 8] "t" (by decide) (by decide)⟩

/-- **C2.** For every DOWNLOAD request, one dispatch iteration writes
either a success control frame immediately followed by one raw payload
frame, or a single error control frame and no payload: the payload frame
is written if and only if the control response sent before it had status
success. -/
theorem download_payload_iff_success (st : Store) (fn : Option String)
    (stream : Stream) (now : String) :
    (∃ r d, (handleMessage st (.req (some "DOWNLOAD") fn) stream now).frames
        = [.control r, .payload d] ∧ r.status = .success) ∨
    (∃ r, (handleMessage st (.req (some "DOWNLOAD") fn) stream now).frames
        = [.control r] ∧ r.status = .error) := by
  by_cases hf : fn.getD "" = ""
  · refine .inr ⟨{ status := .error, message := some "Filename not provided" },
      ?_, rfl⟩
    simp [handleMessage, hf]
  · cases hget : get_file st (fn.getD "") with
    | found data size =>
        refine .inl ⟨{ status := .success, size := some size }, data, ?_, rfl⟩
        simp [handleMessage, hf, hget]
    | failure msg =>
        refine .inr ⟨{ status := .error, message := some msg }, ?_, rfl⟩
        simp [handleMessage, hf, hget]

/-- **C3** (counterexample). At a concrete malformed control frame — a
payload that is UTF-8 text but not valid JSON, caught by
`except json.JSONDecodeError` — the server answers `{status:error,
message:'Invalid request format'}` and keeps the connection open with the
store untouched, contradicting the claim that every malformed frame
closes the connection with no error response. -/
theorem malformed_frame_closes_connection_counterexample :
    (handleMessage [] .notJson [] "t").frames
      = [.control { status := .error, message := some "Invalid request format" }] ∧
    (handleMessage [] .notJson [] "t").action = .proceed := by
  decide

/-- **C3** (amended). Malformed control frames split: a payload that is
UTF-8 text but not valid JSON (`json.JSONDecodeError`, caught at line 210)
is answered with `{status:error, message:'Invalid request format'}` over a
still-open connection, store and unread stream untouched; a payload that
is not decodable UTF-8 (`UnicodeDecodeError`, line 154) or decodes to
JSON that is not a map (`AttributeError` at line 155) raises an uncaught
exception that terminates the handling unit, closing the connection with
no response written for that frame and the store untouched. -/
theorem malformed_frame_outcomes (st : Store) (stream : Stream)
    (now : String) :
    (handleMessage st .notJson stream now
      = ⟨[.control { status := .error, message := some "Invalid request format" }],
         st, .proceed, stream⟩) ∧
    (handleMessage st .notUtf8 stream now = ⟨[], st, .closed, stream⟩) ∧
    (handleMessage st .nonMapJson stream now = ⟨[], st, .closed, stream⟩) :=
  ⟨rfl, rfl, rfl⟩

/-- **C7.** Every well-formed request whose command is none of the five
known ones — including a request with no `command` field, dispatched as
the empty-string command, and commands differing only in case — is
answered with `{status:error, message:'Unknown command: <cmd>'}` with the
received command verbatim; the store and unread stream are untouched and
the dispatch loop continues. -/
theorem unknown_command_error_connection_usable (st : Store)
    (c fn : Option String) (stream : Stream) (now : String)
    (h : c.getD "" ∉ ["LIST", "UPLOAD", "DOWNLOAD", "DELETE", "QUIT"]) :
    handleMessage st (.req c fn) stream now
      = ⟨[.control { status := .error, message := some ("Unknown command: " ++ c.getD "") }],
         st, .proceed, stream⟩ := by
  simp only [List.mem_cons, List.not_mem_nil, or_false, not_or] at h
  obtain ⟨h1, h2, h3, h4, h5⟩ := h
  simp [handleMessage, h1, h2, h3, h4, h5]

/-- Witness for C7: the lower-case command `"list"` is unknown (dispatch
is case-sensitive) and leaves the connection usable. -/
theorem unknown_command_error_connection_usable_witness :
    ((some "list" : Option String).getD ""
       ∉ ["LIST", "UPLOAD", "DOWNLOAD", "DELETE", "QUIT"]) ∧
    handleMessage [] (.req (some "list") none) [] "t"
      = ⟨[.control { status := .error, message := some ("Unknown command: " ++ (some "list" : Option String).getD "") }],
         [], .proceed, []⟩ :=
  ⟨by decide,
   unknown_command_error_connection_usable [] (some "list") none [] "t" (by decide)⟩

/-- **C8.** Every UPLOAD, DOWNLOAD or DELETE request whose `filename`
field is absent or empty is answered with `{status:error,
message:'Filename not provided'}`; no raw payload frame is read (the
unread stream is unchanged) and the store is untouched. -/
theorem missing_filename_error_no_payload (st : Store) (c : String)
    (fn : Option String) (stream : Stream) (now : String)
    (hc : c ∈ ["UPLOAD", "DOWNLOAD", "DELETE"]) (hf : fn.getD "" = "") :
    handleMessage st (.req (some c) fn) stream now
      = ⟨[.control { status := .error, message := some "Filename not provided" }],
         st, .proceed, stream⟩ := by
  simp only [List.mem_cons, List.not_mem_nil, or_false] at hc
  rcases hc with h | h | h <;> subst h <;> simp [handleMessage, hf]

/-- Witness for C8: an UPLOAD request with no `filename` field. -/
theorem missing_filename_error_no_payload_witness :
    (("UPLOAD" : String) ∈ ["UPLOAD", "DOWNLOAD", "DELETE"] ∧
      (none : Option String).getD "" = "") ∧
    handleMessage [] (.req (some "UPLOAD") none) [[1, 2]] "t"
      = ⟨[.control { status := .error, message := some "Filename not provided" }],
         [], .proceed, [[1, 2]]⟩ :=
  ⟨⟨by decide, by decide⟩,
   missing_filename_error_no_payload [] "UPLOAD" none [[1, 2]] "t"
     (by decide) (by decide)⟩

/-- **C9.** A DELETE request naming an absent file is answered with
`{status:error, message:'File <name> not found'}`; the store is unchanged,
no framing failure arises (the iteration writes exactly one control frame
and reads nothing), and the dispatch loop continues. -/
theorem delete_absent_error_store_unchanged (st : Store) (n : String)
    (stream : Stream) (now : String) (hn : n ≠ "")
    (habs : findEntry st n = none) :
    handleMessage st (.req (some "DELETE") (some n)) stream now
      = ⟨[.control { status := .error, message := some ("File " ++ n ++ " not found") }],
         st, .proceed, stream⟩ := by
  simp [handleMessage, delete_file, habs, hn]

/-- Witness for C9: deleting `"ghost"` from a store holding only `"a"`. -/
theorem delete_absent_error_store_unchanged_witness :
    ("ghost" ≠ "" ∧ findEntry [DirEntry.file "a" [1] "m"] "ghost" = none) ∧
    handleMessage [DirEntry.file "a" [1] "m"]
        (.req (some "DELETE") (some "ghost")) [] "t"
      = ⟨[.control { status := .error, message := some ("File " ++ "ghost" ++ " not found") }],
         [DirEntry.file "a" [1] "m"], .proceed, []⟩ :=
  ⟨⟨by decide, by decide⟩,
   delete_absent_error_store_unchanged [DirEntry.file "a" [1] "m"] "ghost"
     [] "t" (by decide) (by decide)⟩

/-- **C4** (counterexample). A concrete UPLOAD whose raw payload is
truncated: the size prefix declares 2 bytes but the stream delivers only
one byte (`9`) before ending. The server does not answer
`'Failed to receive file data'` and does not leave the store unchanged: it
stores the single partial byte and answers success with size 1. -/
theorem upload_truncated_payload_counterexample :
    handleMessage [] (.req (some "UPLOAD") (some "a"))
        [[0, 0, 0, 0, 0, 0, 0, 2], [9]] "t"
      = ⟨[.control { status := .success,
                     message := some "File a stored successfully",
                     size := some 1 }],
         [.file "a" [9] "t"], .proceed, []⟩ := by
  decide

/-- **C4** (amended). For an UPLOAD with a non-empty filename, the server
answers `{status:error, message:'Failed to receive file data'}` with the
store unchanged exactly when `recv(8)` yields fewer than 8 size-prefix
bytes; when the prefix is read in full and the stream delivers at least
the declared `N` bytes, the receiver accumulates exactly the first `N`
delivered bytes — regardless of how the sender chunked them into segments
— and the store is overwritten with exactly those bytes (a payload body
that ends early is instead stored partially, with a success response, as
the counterexample shows). -/
theorem upload_receive_failure_or_exact_accumulation (st : Store)
    (n : String) (stream : Stream) (now : String) (hdr : Bytes)
    (rest : Stream) (hn : n ≠ "") (hrecv : recv stream 8 = (hdr, rest)) :
    (hdr.length ≠ 8 →
      handleMessage st (.req (some "UPLOAD") (some n)) stream now
        = ⟨[.control { status := .error,
                       message := some "Failed to receive file data" }],
           st, .proceed, rest⟩) ∧
    (hdr.length = 8 → (∀ seg ∈ rest, seg ≠ []) →
      fromBytesBE hdr ≤ rest.flatten.length → isDirAt st n = false →
      handleMessage st (.req (some "UPLOAD") (some n)) stream now
        = ⟨[.control { status := .success,
                       message := some ("File " ++ n ++ " stored successfully"),
                       size := some (fromBytesBE hdr) }],
           setFile st n (rest.flatten.take (fromBytesBE hdr)) now, .proceed,
           (recvLoop rest (fromBytesBE hdr)).2⟩) := by
  constructor
  · intro hshort
    have hrfd : receive_file_data stream = (none, rest) := by
      simp [receive_file_data, hrecv, hshort]
    simp [handleMessage, hn, hrfd]
  · intro hfull hwf hle hdir
    have hrl : (recvLoop rest (fromBytesBE hdr)).1
        = rest.flatten.take (fromBytesBE hdr) :=
      recvLoop_exact rest _ hwf hle
    have hrfd : receive_file_data stream
        = (some (rest.flatten.take (fromBytesBE hdr)),
           (recvLoop rest (fromBytesBE hdr)).2) := by
      simp [receive_file_data, hrecv, hfull, ← hrl]
    have hsz : (rest.flatten.take (fromBytesBE hdr)).length = fromBytesBE hdr := by
      simp only [List.length_take]
      omega
    simp [handleMessage, hn, hrfd, store_file, hdir, hsz]

/-- Witness for C4: the stream delivers an 8-byte prefix declaring 2
bytes, then the 2 payload bytes split across two one-byte segments; the
store ends up with exactly those 2 bytes. -/
theorem upload_receive_failure_or_exact_accumulation_witness :
    ("a" ≠ "" ∧ recv [[0, 0, 0, 0, 0, 0, 0, 2], [7], [9]] 8
       = ([0, 0, 0, 0, 0, 0, 0, 2], [[7], [9]])) ∧
    (([0, 0, 0, 0, 0, 0, 0, 2] : Bytes).length = 8 →
      (∀ seg ∈ [([7] : Bytes), [9]], seg ≠ []) →
      fromBytesBE [0, 0, 0, 0, 0, 0, 0, 2]
        ≤ ([[7], [9]] : Stream).flatten.length →
      isDirAt [] "a" = false →
      handleMessage [] (.req (some "UPLOAD") (some "a"))
          [[0, 0, 0, 0, 0, 0, 0, 2], [7], [9]] "t"
        = ⟨[.control { status := .success,
                       message := some ("File " ++ "a" ++ " stored successfully"),
                       size := some (fromBytesBE [0, 0, 0, 0, 0, 0, 0, 2]) }],
           setFile [] "a"
             (([[7], [9]] : Stream).flatten.take
               (fromBytesBE [0, 0, 0, 0, 0, 0, 0, 2])) "t", .proceed,
           (recvLoop [[7], [9]] (fromBytesBE [0, 0, 0, 0, 0, 0, 0, 2])).2⟩) :=
  ⟨⟨by decide, by decide⟩,
   (upload_receive_failure_or_exact_accumulation [] "a"
     [[0, 0, 0, 0, 0, 0, 0, 2], [7], [9]] "t" [0, 0, 0, 0, 0, 0, 0, 2]
     [[7], [9]] (by decide) (by decide)).2⟩

/-- **C6.** Every control frame consists of the 4-byte big-endian length
`L` of the encoded body followed by exactly those `L` body bytes, and
every raw payload frame consists of the 8-byte big-endian length `N` of
the content followed by exactly the `N` content bytes (the 4096-byte send
chunking reassembles to the content), never padded or truncated. The
bounds are the ranges below which Python's `int.to_bytes` does not raise
`OverflowError`. -/
theorem frame_layout_exact (body file_data : Bytes)
    (hb : body.length < 2 ^ 32) (hd : file_data.length < 2 ^ 64) :
    (send_control_frame body).length = 4 + body.length ∧
    fromBytesBE ((send_control_frame body).take 4) = body.length ∧
    (send_control_frame body).drop 4 = body ∧
    (send_file_data file_data).length = 8 + file_data.length ∧
    fromBytesBE ((send_file_data file_data).take 8) = file_data.length ∧
    (send_file_data file_data).drop 8 = file_data := by
  have h4 : (toBytesBE 4 body.length).length = 4 := toBytesBE_length 4 _
  have h8 : (toBytesBE 8 file_data.length).length = 8 := toBytesBE_length 8 _
  have hb' : body.length < 256 ^ 4 := by
    have : (256 : ℕ) ^ 4 = 2 ^ 32 := by norm_num
    rw [this]; exact hb
  have hd' : file_data.length < 256 ^ 8 := by
    have : (256 : ℕ) ^ 8 = 2 ^ 64 := by norm_num
    rw [this]; exact hd
  refine ⟨?_, ?_, ?_, ?_, ?_, ?_⟩
  · simp [send_control_frame, h4]
  · rw [send_control_frame, List.take_left' h4, fromBytesBE_toBytesBE 4 _ hb']
  · rw [send_control_frame, List.drop_left' h4]
  · simp [send_file_data, h8, sendChunks_flatten]
  · rw [send_file_data, List.take_left' h8, fromBytesBE_toBytesBE 8 _ hd']
  · rw [send_file_data, List.drop_left' h8, sendChunks_flatten]

/-- Witness for C6: a 1-byte control body and a 3-byte payload. -/
theorem frame_layout_exact_witness :
    (([7] : Bytes).length < 2 ^ 32 ∧ ([1, 2, 3] : Bytes).length < 2 ^ 64) ∧
    ((send_control_frame [7]).length = 4 + ([7] : Bytes).length ∧
     fromBytesBE ((send_control_frame [7]).take 4) = ([7] : Bytes).length ∧
     (send_control_frame [7]).drop 4 = [7] ∧
     (send_file_data [1, 2, 3]).length = 8 + ([1, 2, 3] : Bytes).length ∧
     fromBytesBE ((send_file_data [1, 2, 3]).take 8) = ([1, 2, 3] : Bytes).length ∧
     (send_file_data [1, 2, 3]).drop 8 = [1, 2, 3]) :=
  ⟨⟨by norm_num, by norm_num⟩,
   frame_layout_exact [7] [1, 2, 3] (by norm_num) (by norm_num)⟩

/-- **C5** (counterexample). A successful UPLOAD (here: an empty payload,
size prefix 0) is answered by `store_file`'s response, which populates
*two* of the optional fields — `message` and `size` — contradicting the
claim that exactly one optional field is populated in every response. -/
theorem exactly_one_populated_field_counterexample :
    (handleMessage [] (.req (some "UPLOAD") (some "a"))
        [[0, 0, 0, 0, 0, 0, 0, 0]] "t").frames
      = [.control { status := .success,
                    message := some "File a stored successfully",
                    size := some 0 }] ∧
    Response.populatedCount
        { status := .success,
          message := some "File a stored successfully", size := some 0 }
      = 2 := by
  decide

/-- **C5** (amended). Every control response the dispatch emits populates
exactly one of the optional fields `message`, `size`, `files`, and which
field is tied to the command kind: every error response populates exactly
`message`; a success response populates exactly `files` for LIST, exactly
`size` for DOWNLOAD, exactly `message` for DELETE and QUIT — except the
UPLOAD success response, which populates both `message` and `size` (and
never `files`). -/
theorem response_fields_per_command (st : Store) (m : Msg) (stream : Stream)
    (now : String) (r : Response)
    (hr : Frame.control r ∈ (handleMessage st m stream now).frames) :
    (r.status = .error ∧ r.message.isSome ∧ r.size = none ∧ r.files = none) ∨
    (r.status = .success ∧ ∃ fn,
      ((m = .req (some "LIST") fn ∧ r.message = none ∧ r.size = none ∧
          r.files.isSome) ∨
       (m = .req (some "DOWNLOAD") fn ∧ r.message = none ∧ r.size.isSome ∧
          r.files = none) ∨
       ((m = .req (some "DELETE") fn ∨ m = .req (some "QUIT") fn) ∧
          r.message.isSome ∧ r.size = none ∧ r.files = none) ∨
       (m = .req (some "UPLOAD") fn ∧ r.message.isSome ∧ r.size.isSome ∧
          r.files = none))) := by
  cases m with
  | notUtf8 => simp [handleMessage] at hr
  | nonMapJson => simp [handleMessage] at hr
  | notJson =>
      simp only [handleMessage, List.mem_singleton, Frame.control.injEq] at hr
      subst hr
      exact .inl ⟨rfl, rfl, rfl, rfl⟩
  | req c f =>
      by_cases h1 : c.getD "" = "LIST"
      · have hc : c = some "LIST" := getD_empty_eq_some h1 (by decide)
        simp [handleMessage, h1] at hr
        subst hr
        exact .inr ⟨rfl, f, .inl ⟨by rw [hc], rfl, rfl, rfl⟩⟩
      · by_cases h2 : c.getD "" = "UPLOAD"
        · have hc : c = some "UPLOAD" := getD_empty_eq_some h2 (by decide)
          by_cases hf : f.getD "" = ""
          · simp [handleMessage, h2, hf] at hr
            subst hr
            exact .inl ⟨rfl, rfl, rfl, rfl⟩
          · rcases hq : receive_file_data stream with ⟨fd, s₁⟩
            cases fd with
            | none =>
                simp [handleMessage, h2, hf, hq] at hr
                subst hr
                exact .inl ⟨rfl, rfl, rfl, rfl⟩
            | some data =>
                by_cases hdir : isDirAt st (f.getD "")
                · simp [handleMessage, h2, hf, hq, store_file, hdir] at hr
                  subst hr
                  exact .inl ⟨rfl, rfl, rfl, rfl⟩
                · simp [handleMessage, h2, hf, hq, store_file, hdir] at hr
                  subst hr
                  exact .inr ⟨rfl, f,
                    .inr (.inr (.inr ⟨by rw [hc], rfl, rfl, rfl⟩))⟩
        · by_cases h3 : c.getD "" = "DOWNLOAD"
          · have hc : c = some "DOWNLOAD" := getD_empty_eq_some h3 (by decide)
            by_cases hf : f.getD "" = ""
            · simp [handleMessage, h3, hf] at hr
              subst hr
              exact .inl ⟨rfl, rfl, rfl, rfl⟩
            · cases hg : get_file st (f.getD "") with
              | found data size =>
                  simp [handleMessage, h3, hf, hg] at hr
                  subst hr
                  exact .inr ⟨rfl, f, .inr (.inl ⟨by rw [hc], rfl, rfl, rfl⟩)⟩
              | failure msg =>
                  simp [handleMessage, h3, hf, hg] at hr
                  subst hr
                  exact .inl ⟨rfl, rfl, rfl, rfl⟩
          · by_cases h4 : c.getD "" = "DELETE"
            · have hc : c = some "DELETE" := getD_empty_eq_some h4 (by decide)
              by_cases hf : f.getD "" = ""
              · simp [handleMessage, h4, hf] at hr
                subst hr
                exact .inl ⟨rfl, rfl, rfl, rfl⟩
              · rcases hfind : findEntry st (f.getD "") with _ | e
                · simp [handleMessage, h4, hf, delete_file, hfind] at hr
                  subst hr
                  exact .inl ⟨rfl, rfl, rfl, rfl⟩
                · cases e with
                  | file nm co mo =>
                      simp [handleMessage, h4, hf, delete_file, hfind] at hr
                      subst hr
                      exact .inr ⟨rfl, f,
                        .inr (.inr (.inl ⟨.inl (by rw [hc]), rfl, rfl, rfl⟩))⟩
                  | subdir nm =>
                      simp [handleMessage, h4, hf, delete_file, hfind] at hr
                      subst hr
                      exact .inl ⟨rfl, rfl, rfl, rfl⟩
            · by_cases h5 : c.getD "" = "QUIT"
              · have hc : c = some "QUIT" := getD_empty_eq_some h5 (by decide)
                simp [handleMessage, h5] at hr
                subst hr
                exact .inr ⟨rfl, f,
                  .inr (.inr (.inl ⟨.inr (by rw [hc]), rfl, rfl, rfl⟩))⟩
              · simp [handleMessage, h1, h2, h3, h4, h5] at hr
                subst hr
                exact .inl ⟨rfl, rfl, rfl, rfl⟩

/-- Witness for C5 (amended): the LIST response on an empty store, which
populates exactly the `files` field. -/
theorem response_fields_per_command_witness :
    (Frame.control { status := .success, files := some ([] : List FileMetadata) }
        ∈ (handleMessage [] (.req (some "LIST") none) [] "t").frames) ∧
    ((({ status := .success, files := some ([] : List FileMetadata) }
          : Response).status = .error ∧
        ({ status := .success, files := some ([] : List FileMetadata) }
          : Response).message.isSome ∧
        ({ status := .success, files := some ([] : List FileMetadata) }
          : Response).size = none ∧
        ({ status := .success, files := some ([] : List FileMetadata) }
          : Response).files = none) ∨
     (({ status := .success, files := some ([] : List FileMetadata) }
          : Response).status = .success ∧ ∃ fn,
        ((Msg.req (some "LIST") none = .req (some "LIST") fn ∧
            ({ status := .success, files := some ([] : List FileMetadata) }
              : Response).message = none ∧
            ({ status := .success, files := some ([] : List FileMetadata) }
              : Response).size = none ∧
            ({ status := .success, files := some ([] : List FileMetadata) }
              : Response).files.isSome) ∨
         (Msg.req (some "LIST") none = .req (some "DOWNLOAD") fn ∧
            ({ status := .success, files := some ([] : List FileMetadata) }
              : Response).message = none ∧
            ({ status := .success, files := some ([] : List FileMetadata) }
              : Response).size.isSome ∧
            ({ status := .success, files := some ([] : List FileMetadata) }
              : Response).files = none) ∨
         ((Msg.req (some "LIST") none = .req (some "DELETE") fn ∨
             Msg.req (some "LIST") none = .req (some "QUIT") fn) ∧
            ({ status := .success, files := some ([] : List FileMetadata) }
              : Response).message.isSome ∧
            ({ status := .success, files := some ([] : List FileMetadata) }
              : Response).size = none ∧
            ({ status := .success, files := some ([] : List FileMetadata) }
              : Response).files = none) ∨
         (Msg.req (some "LIST") none = .req (some "UPLOAD") fn ∧
            ({ status := .success, files := some ([] : List FileMetadata) }
              : Response).message.isSome ∧
            ({ status := .success, files := some ([] : List FileMetadata) }
              : Response).size.isSome ∧
            ({ status := .success, files := some ([] : List FileMetadata) }
              : Response).files = none)))) :=
  ⟨by decide,
   response_fields_per_command [] (.req (some "LIST") none) [] "t"
     { status := .success, files := some ([] : List FileMetadata) } (by decide)⟩

/-- **C10.** In a store with distinct entry names (true of every real
directory), every entry of the `files` list of a LIST response describes a
regular file present in the store — sub-directories are skipped — and
carries `exists = true` together with the file's name, size and modified
timestamp; the LIST dispatch performs no writes (the store is unchanged)
and reads no payload (the stream is unchanged). -/
theorem list_entries_are_files_with_metadata (st : Store) (fn : Option String)
    (stream : Stream) (now : String)
    (hnd : (st.map DirEntry.name).Nodup) :
    (list_files st).status = .success ∧
    (∀ m ∈ (list_files st).files.getD [],
        m.«exists» = true ∧
        ∃ c mo, DirEntry.file m.name c mo ∈ st ∧
          m.size = some c.length ∧ m.modified = some mo) ∧
    (handleMessage st (.req (some "LIST") fn) stream now).store = st ∧
    (handleMessage st (.req (some "LIST") fn) stream now).stream = stream := by
  have hstore :
      (handleMessage st (.req (some "LIST") fn) stream now).store = st := by
    simp [handleMessage]
  have hstream :
      (handleMessage st (.req (some "LIST") fn) stream now).stream = stream := by
    simp [handleMessage]
  refine ⟨rfl, ?_, hstore, hstream⟩
  intro m hm
  simp only [list_files, Option.getD_some] at hm
  rcases List.mem_filterMap.mp hm with ⟨e, he, hfe⟩
  cases e with
  | subdir nm => simp at hfe
  | file nm c mo =>
      simp only [Option.some.injEq] at hfe
      have hfind : findEntry st nm = some (.file nm c mo) := by
        have := findEntry_of_nodup st (.file nm c mo) hnd he
        simpa [DirEntry.name] using this
      rw [← hfe]
      refine ⟨by simp [get_file_info, hfind], c, mo, ?_,
        by simp [get_file_info, hfind], by simp [get_file_info, hfind]⟩
      simpa [get_file_info, hfind] using he

/-- Witness for C10: a store holding one file and one sub-directory; the
LIST output has exactly the file's metadata. -/
theorem list_entries_are_files_with_metadata_witness :
    (([DirEntry.file "a" [1, 2] "m", DirEntry.subdir "d"].map
        DirEntry.name).Nodup) ∧
    ((list_files [DirEntry.file "a" [1, 2] "m", DirEntry.subdir "d"]).status
        = .success ∧
     (∀ m ∈ (list_files [DirEntry.file "a" [1, 2] "m",
          DirEntry.subdir "d"]).files.getD [],
        m.«exists» = true ∧
        ∃ c mo, DirEntry.file m.name c mo
            ∈ [DirEntry.file "a" [1, 2] "m", DirEntry.subdir "d"] ∧
          m.size = some c.length ∧ m.modified = some mo) ∧
     (handleMessage [DirEntry.file "a" [1, 2] "m", DirEntry.subdir "d"]
         (.req (some "LIST") none) [] "t").store
        = [DirEntry.file "a" [1, 2] "m", DirEntry.subdir "d"] ∧
     (handleMessage [DirEntry.file "a" [1, 2] "m", DirEntry.subdir "d"]
         (.req (some "LIST") none) [] "t").stream = []) :=
  ⟨by decide,
   list_entries_are_files_with_metadata
     [DirEntry.file "a" [1, 2] "m", DirEntry.subdir "d"] none [] "t"
     (by decide)⟩

end FileTransfer
